import Mathlib

set_option maxRecDepth 1000000

/-!
Shallow embedding of the resumerag matching/search core
(`src/backend/src/utils/embeddings.ts` and the `POST /api/jobs/:id/match`
handler of `src/backend/src/routes/jobs.ts`) together with proofs about it.

Modelling conventions:
* JavaScript numbers are modelled exactly: integer-valued intermediate
  results as `Nat`/`Int`, fractional scores as `ℚ`/`ℝ`.  The one place the
  source can produce `NaN` (dividing by a zero `totalRequirements`) is
  modelled with `Option`: `none` stands for `NaN`.
* Strings are `String`/`List Char`; `charCodeAt` is `Char.toNat` (all
  inputs considered are ASCII, where the two agree), `toLowerCase` is
  `Char.toLower` character-wise.
* Functions that JavaScript implements with regular expressions are
  modelled by a small executable backtracking regex engine (`RTok`,
  `matchToks`) whose greedy/backtracking order follows JavaScript's.
* Recursions that must be evaluated by the kernel are written with an
  explicit fuel argument (structural recursion); the fuel supplied by the
  wrappers is large enough that it is never exhausted on the inputs
  considered.
-/

namespace ResumeRAG

/-- JavaScript `\s` (whitespace class), restricted to the ASCII range of the
inputs considered: space, tab, line feed, carriage return, vertical tab,
form feed. -/
def isWs (c : Char) : Bool :=
  c = ' ' || c = '\t' || c = '\n' || c = '\r' || c.toNat = 11 || c.toNat = 12

/-- `ToInt32` conversion applied by JavaScript's bitwise operators:
wrap into the signed 32-bit range. -/
def toInt32 (z : Int) : Int :=
  (z + 2 ^ 31) % 2 ^ 32 - 2 ^ 31

/-- One step of `simpleHash`'s loop:
`hash = ((hash << 5) - hash) + char; hash = hash & hash`.
`hash << 5` coerces the accumulator to Int32 and shifts; `& hash`
coerces the sum back to Int32.  The intermediate sum is at most a few
times `2^32` and hence exact in a JavaScript double. -/
def hashStep (h : Int) (c : Char) : Int :=
  toInt32 (toInt32 (h * 32) - h + c.toNat)

/-- `simpleHash` from `embeddings.ts`: fold the step over the characters,
then `Math.abs`. -/
def simpleHash (s : List Char) : Nat :=
  (s.foldl hashStep 0).natAbs

/-- `text.split(/\s+/)` on a character list.  The accumulator holds the
current token reversed; a whitespace run ends the token and is skipped.
Splitting the empty string yields `[""]`, leading/trailing whitespace
yields a leading/trailing empty token, exactly as in JavaScript.
The fuel is structural so the kernel can evaluate; `splitWs` supplies
`length + 1`, which is never exhausted since every step with remaining
fuel consumes at least one character. -/
def splitWsGo : Nat → List Char → List Char → List (List Char)
  | 0, _, acc => [acc.reverse]
  | _ + 1, [], acc => [acc.reverse]
  | f + 1, c :: cs, acc =>
    if isWs c then acc.reverse :: splitWsGo f (cs.dropWhile isWs) []
    else splitWsGo f cs (c :: acc)

/-- `text.split(/\s+/)`. -/
def splitWs (s : List Char) : List (List Char) :=
  splitWsGo (s.length + 1) s []

/-- The string `word + index` hashed by `generateMockEmbedding`:
the token with the decimal representation of its 0-based position
appended. -/
def tokenStr (w : List Char) (i : Nat) : List Char :=
  w ++ (Nat.repr i).data

/-- One `words.forEach` step of `generateMockEmbedding`:
`embedding[hash % 384] += (hash % 1000) / 1000`. -/
def accumStep (v : List ℚ) (iw : Nat × List Char) : List ℚ :=
  let h := simpleHash (tokenStr iw.2 iw.1)
  v.set (h % 384) (v.getD (h % 384) 0 + ((h % 1000 : ℕ) : ℚ) / 1000)

/-- The pre-normalization 384-dimensional accumulator vector of
`generateMockEmbedding`: lower-case, split on whitespace, and accumulate
the hashed tokens into a vector of 384 zeros. -/
def embAccum (text : List Char) : List ℚ :=
  ((splitWs (text.map Char.toLower)).enum).foldl accumStep (List.replicate 384 0)

/-- Twin of `accumStep` that carries the vector in integer thousandths
(the accumulated values are always multiples of `1/1000`).  Used so that
concrete inputs can be evaluated by `decide` over `Nat`. -/
def accumStepM (v : List ℕ) (iw : Nat × List Char) : List ℕ :=
  let h := simpleHash (tokenStr iw.2 iw.1)
  v.set (h % 384) (v.getD (h % 384) 0 + h % 1000)

/-- Integer-thousandths twin of `embAccum`. -/
def embAccumM (text : List Char) : List ℕ :=
  ((splitWs (text.map Char.toLower)).enum).foldl accumStepM (List.replicate 384 0)

/-- `embedding.reduce((sum, val) => sum + val * val, 0)` over `ℚ`. -/
def sumSqQ (l : List ℚ) : ℚ :=
  l.foldl (fun s v => s + v * v) 0

/-- Integer-thousandths twin of `sumSqQ` (values in millionths). -/
def sumSqM (l : List ℕ) : ℕ :=
  l.foldl (fun s v => s + v * v) 0

/-- The squared magnitude computed by `generateMockEmbedding` before the
square root is taken. -/
def magSq (text : List Char) : ℚ :=
  sumSqQ (embAccum text)

/-- `generateMockEmbedding` from `embeddings.ts`: accumulate, then divide
every component by the Euclidean magnitude. -/
noncomputable def generateMockEmbedding (text : String) : List ℝ :=
  (embAccum text.data).map (fun v : ℚ => (v : ℝ) / Real.sqrt ((magSq text.data : ℚ) : ℝ))

/-- `reduce((sum, val) => sum + val * val, 0)` over `ℝ`. -/
def sumSqR (l : List ℝ) : ℝ :=
  l.foldl (fun s v => s + v * v) 0

/-- Euclidean norm of a real vector (the spec's "Euclidean norm"). -/
noncomputable def euclidNorm (l : List ℝ) : ℝ :=
  Real.sqrt (sumSqR l)

/-- The dot-product loop of `cosineSimilarity`. -/
def dotR (a b : List ℝ) : ℝ :=
  (List.zipWith (fun x y => x * y) a b).foldl (fun s v => s + v) 0

/-- `cosineSimilarity` from `embeddings.ts`: `0` on length mismatch
(explicit guard), otherwise `dot / (sqrt normA * sqrt normB)`. -/
noncomputable def cosineSimilarity (a b : List ℝ) : ℝ :=
  if a.length = b.length then
    dotR a b / (Real.sqrt (sumSqR a) * Real.sqrt (sumSqR b))
  else 0

/-! ## Semantic retrieval (`semanticSearch` in `embeddings.ts`) -/

/-- A corpus entry handed to `semanticSearch`:
`{ id: string; text: string; embedding: number[] }`. -/
structure RetrievalDoc where
  id : String
  text : String
  embedding : List ℝ

/-- A retrieval result: `{ resume_id, text, score }`. -/
structure RetrievalHit where
  resume_id : String
  text : String
  score : ℝ

/-- The `resumes.map(...)` step of `semanticSearch`: score every corpus
entry against the query embedding and keep the first 500 characters of
its text as the snippet. -/
noncomputable def searchHits (query : String) (resumes : List RetrievalDoc) : List RetrievalHit :=
  let queryEmbedding := generateMockEmbedding query
  resumes.map (fun r => ⟨r.id, ⟨r.text.data.take 500⟩, cosineSimilarity queryEmbedding r.embedding⟩)

/-- The sort comparator `(a, b) => b.score - a.score`: `a` may stay before
`b` exactly when `b.score ≤ a.score` (descending order). -/
noncomputable def hitLE (a b : RetrievalHit) : Bool :=
  decide (b.score ≤ a.score)

/-- The threshold predicate `result.score > 0.1`. -/
noncomputable def hitAbove (h : RetrievalHit) : Bool :=
  decide ((1 / 10 : ℝ) < h.score)

/-- `semanticSearch` from `embeddings.ts`: score, sort descending,
`.slice(0, k)`, then `.filter(result => result.score > 0.1)`. -/
noncomputable def semanticSearch (query : String) (resumes : List RetrievalDoc) (k : ℕ) :
    List RetrievalHit :=
  (((searchHits query resumes).mergeSort hitLE).take k).filter hitAbove

/-- Modelled from the spec's words (§4.5 steps 5-6): filter out entries
with score ≤ 0.1 FIRST, then truncate to the first `k`.  Named `...Spec`
because it follows the spec, not the source, and exists only to be
compared with `semanticSearch`. -/
noncomputable def semanticSearchSpec (query : String) (resumes : List RetrievalDoc) (k : ℕ) :
    List RetrievalHit :=
  (((searchHits query resumes).mergeSort hitLE).filter hitAbove).take k

/-! ## Job matching (`POST /api/jobs/:id/match` in `routes/jobs.ts`) -/

/-- A resume row as selected by the match handler. -/
structure ResumeRecord where
  id : String
  filename : String
  text : String
  embedding : List ℝ
  userName : String
  userEmail : String

/-- One element of the handler's `matches` array.  `match_score` is an
`Option ℝ`: `none` models the JavaScript `NaN` produced when
`totalRequirements` is `0` (see `keywordScore`). -/
structure MatchCandidate where
  resume_id : String
  candidate_name : String
  candidate_email : String
  resume_filename : String
  match_score : Option ℝ
  evidence_snippets : List String
  missing_requirements : List String

/-- The separator class of `requirement.split(/[,:;]/)`. -/
def sepPunct (c : Char) : Bool :=
  c = ',' || c = ':' || c = ';'

/-- `split(/[,:;]/)`: single-character separators, empty pieces kept. -/
def splitPunctGo : List Char → List Char → List (List Char)
  | [], acc => [acc.reverse]
  | c :: cs, acc =>
    if sepPunct c then acc.reverse :: splitPunctGo cs []
    else splitPunctGo cs (c :: acc)

/-- `requirement.split(/[,:;]/)`. -/
def splitPunct (s : List Char) : List (List Char) :=
  splitPunctGo s []

/-- JavaScript `String.prototype.trim`: strip whitespace from both ends. -/
def jsTrim (s : List Char) : List Char :=
  ((s.dropWhile isWs).reverse.dropWhile isWs).reverse

/-- `requirement.split(/[,:;]/).map(word => word.trim().toLowerCase())`. -/
def requirementWords (req : List Char) : List (List Char) :=
  (splitPunct req).map (fun w => (jsTrim w).map Char.toLower)

/-- Index of the first occurrence of `needle` in the suffix of the
haystack, `i` being the offset already consumed (JavaScript `indexOf`). -/
def indexOfGo (needle : List Char) : List Char → ℕ → Option ℕ
  | [], i => if needle.isPrefixOf ([] : List Char) then some i else none
  | s@(_ :: cs), i => if needle.isPrefixOf s then some i else indexOfGo needle cs (i + 1)

/-- JavaScript `hay.includes(needle)`. -/
def jsIncludes (hay needle : List Char) : Bool :=
  (indexOfGo needle hay 0).isSome

/-- The inner `for (const word of requirementWords)` loop: the first
sub-phrase with `word.length > 2 && resumeText.includes(word)` produces
the evidence snippet (context window of 100 characters on both sides,
clipped to the text bounds, cut out of the original-case text) and
breaks; if none matches the result is `none`. -/
def findEvidence (resumeLower origText : List Char) : List (List Char) → Option (List Char)
  | [] => none
  | w :: ws =>
    if w.length > 2 && jsIncludes resumeLower w then
      some (
        let index := (indexOfGo w resumeLower 0).getD 0
        let start := index - 100
        let stop := min resumeLower.length (index + w.length + 100)
        (origText.take stop).drop start)
    else findEvidence resumeLower origText ws

/-- The `jobRequirements.forEach(requirement => ...)` loop: each
requirement contributes either one evidence snippet or one entry of the
missing list, in input order. -/
def reqLoop (resumeLower origText : List Char) : List (List Char) → List (List Char) × List (List Char)
  | [] => ([], [])
  | req :: rest =>
    let res := reqLoop resumeLower origText rest
    match findEvidence resumeLower origText (requirementWords req) with
    | some snip => (snip :: res.1, res.2)
    | none => (res.1, req :: res.2)

/-- `keywordScore = (matchedRequirements / totalRequirements) * 100` with
`matchedRequirements = totalRequirements - missingRequirements.length`.
When `totalRequirements` is `0` the numerator is also `0` (the loop puts
every requirement in exactly one of the two lists), so JavaScript
computes `0 / 0 = NaN`, modelled as `none`.  There is no guard in the
source. -/
noncomputable def keywordScore (totalRequirements missingCount : ℕ) : Option ℝ :=
  if totalRequirements = 0 then none
  else some ((((totalRequirements : ℝ) - (missingCount : ℝ)) / (totalRequirements : ℝ)) * 100)

/-- `combinedScore = (similarity * 100 * 0.3) + (keywordScore * 0.7)`;
`NaN` (`none`) propagates through `*` and `+`. -/
noncomputable def combinedScore (similarity : ℝ) : Option ℝ → Option ℝ
  | none => none
  | some kw => some (similarity * 100 * (3 / 10) + kw * (7 / 10))

/-- `Math.max(0, Math.min(100, combinedScore))`; both `Math.min` and
`Math.max` return `NaN` when fed `NaN`, so `none` passes through. -/
noncomputable def clampScore : Option ℝ → Option ℝ
  | none => none
  | some c => some (max 0 (min 100 c))

/-- The body of `resumes.map(resume => ...)` in the match handler,
producing one `MatchCandidate` for one resume. -/
noncomputable def buildMatch (jobTitle jobDescription : String) (jobRequirements : List String)
    (resume : ResumeRecord) : MatchCandidate :=
  let jobText := jobTitle ++ " " ++ jobDescription ++ " " ++ String.intercalate " " jobRequirements
  let similarity := cosineSimilarity (generateMockEmbedding jobText) resume.embedding
  let resumeLower := resume.text.data.map Char.toLower
  let reqs := jobRequirements.map (fun r => r.data.map Char.toLower)
  let em := reqLoop resumeLower resume.text.data reqs
  { resume_id := resume.id
    candidate_name := resume.userName
    candidate_email := resume.userEmail
    resume_filename := resume.filename
    match_score := clampScore (combinedScore similarity (keywordScore reqs.length em.2.length))
    evidence_snippets := (em.1.take 3).map (fun l => (⟨l⟩ : String))
    missing_requirements := (em.2.take 5).map (fun l => (⟨l⟩ : String)) }

/-- `0 <= match_score <= 100` for an `Option ℝ` score; `NaN` (`none`)
violates the bounds. -/
def scoreInBounds : Option ℝ → Prop
  | none => False
  | some x => 0 ≤ x ∧ x ≤ 100

/-! ## A small regex engine for the PII scanner (`extractPII`/`redactPII`) -/

/-- JavaScript `\w` (word character): `[A-Za-z0-9_]`. -/
def isWordChar (c : Char) : Bool :=
  c.isAlpha || c.isDigit || c = '_'

/-- JavaScript `.` : any character except a line terminator. -/
def dotPred (c : Char) : Bool :=
  !(c = '\n' || c = '\r' || c.toNat = 0x2028 || c.toNat = 0x2029)

/-- Tokens of the regular expressions used by the PII scanner: a literal
character, the wildcard `.`, a character class, an exact repetition
`{n}` of a class, a greedy `{n,}`/`+` repetition of a class, a greedy
optional group `(...)?`, and the word-boundary assertion `\b`.
Capture groups are irrelevant to which text matches and are flattened. -/
inductive RTok where
  | lit (c : Char)
  | dot
  | cls (p : Char → Bool)
  | rep (n : ℕ) (p : Char → Bool)
  | repMin (n : ℕ) (p : Char → Bool)
  | opt (g : List RTok)
  | wb

/-- Does `\b` hold between `prev` and the first character of `s`?
The outside of the string counts as non-word. -/
def wbHolds (prev : Option Char) (s : List Char) : Bool :=
  (match prev with | some c => isWordChar c | none => false)
    != (match s with | c :: _ => isWordChar c | [] => false)

/-- Backtracking matcher.  `matchToks fuel toks prev s` returns the number
of characters of `s` consumed by the first match of the token sequence
`toks` anchored at the start of `s`, following JavaScript's preference
order: greedy repetitions and optionals try the longer consumption first
and backtrack on failure.  `prev` is the character just before `s` (for
`\b`).  `none` means no match (or exhausted fuel; the wrappers supply far
more fuel than the evaluations in this file consume). -/
def matchToks : ℕ → List RTok → Option Char → List Char → Option ℕ
  | 0, _, _, _ => none
  | _ + 1, [], _, _ => some 0
  | f + 1, RTok.wb :: ts, prev, s =>
    if wbHolds prev s then matchToks f ts prev s else none
  | f + 1, RTok.lit c :: ts, _, s =>
    match s with
    | [] => none
    | x :: xs => if x = c then (matchToks f ts (some x) xs).map (· + 1) else none
  | f + 1, RTok.dot :: ts, _, s =>
    match s with
    | [] => none
    | x :: xs => if dotPred x then (matchToks f ts (some x) xs).map (· + 1) else none
  | f + 1, RTok.cls p :: ts, _, s =>
    match s with
    | [] => none
    | x :: xs => if p x then (matchToks f ts (some x) xs).map (· + 1) else none
  | f + 1, RTok.rep n p :: ts, prev, s =>
    match n with
    | 0 => matchToks f ts prev s
    | m + 1 =>
      match s with
      | [] => none
      | x :: xs =>
        if p x then (matchToks f (RTok.rep m p :: ts) (some x) xs).map (· + 1) else none
  | f + 1, RTok.repMin n p :: ts, prev, s =>
    match n with
    | m + 1 =>
      match s with
      | [] => none
      | x :: xs =>
        if p x then (matchToks f (RTok.repMin m p :: ts) (some x) xs).map (· + 1) else none
    | 0 =>
      (match s with
        | [] => none
        | x :: xs =>
          if p x then (matchToks f (RTok.repMin 0 p :: ts) (some x) xs).map (· + 1)
          else none).orElse
        (fun _ => matchToks f ts prev s)
  | f + 1, RTok.opt g :: ts, prev, s =>
    (matchToks f (g ++ ts) prev s).orElse (fun _ => matchToks f ts prev s)

/-- Fuel for the backtracking matcher: far more than any evaluation in
this file consumes. -/
def matchFuel : ℕ := 1000000

/-- One global pass (`text.match(re)` with the `g` flag): try a match at
every position from left to right, collecting the matched substrings and
continuing right after the end of each (nonempty) match. -/
def scanGo (toks : List RTok) : ℕ → Option Char → List Char → List (List Char)
  | 0, _, _ => []
  | f + 1, prev, s =>
    match matchToks matchFuel toks prev s with
    | some (n + 1) => s.take (n + 1) :: scanGo toks f (s.get? n) (s.drop (n + 1))
    | _ =>
      match s with
      | [] => []
      | c :: cs => scanGo toks f (some c) cs

/-- `text.match(re)` for a global regex, as the list of matches. -/
def jsMatchAll (toks : List RTok) (s : List Char) : List (List Char) :=
  scanGo toks (s.length + 1) none s

/-- `text.replace(re, repl)` with a global regex: like `scanGo`, but
emitting the replacement for every match and the original character
where there is none. -/
def replaceGo (toks : List RTok) (repl : List Char) : ℕ → Option Char → List Char → List Char
  | 0, _, s => s
  | f + 1, prev, s =>
    match matchToks matchFuel toks prev s with
    | some (n + 1) => repl ++ replaceGo toks repl f (s.get? n) (s.drop (n + 1))
    | _ =>
      match s with
      | [] => []
      | c :: cs => c :: replaceGo toks repl f (some c) cs

/-- `text.replace(re, repl)` with the `g` flag. -/
def jsReplaceAll (toks : List RTok) (repl s : List Char) : List Char :=
  replaceGo toks repl (s.length + 1) none s

/-- `[A-Za-z0-9._%+-]` — the local part of the email pattern. -/
def emailLocalCls (c : Char) : Bool :=
  c.isAlpha || c.isDigit || c = '.' || c = '_' || c = '%' || c = '+' || c = '-'

/-- `[A-Za-z0-9.-]` — the domain part of the email pattern. -/
def emailDomainCls (c : Char) : Bool :=
  c.isAlpha || c.isDigit || c = '.' || c = '-'

/-- `[A-Z|a-z]` — the TLD class of the source email pattern (the source
class literally contains `|`). -/
def tldCls (c : Char) : Bool :=
  c.isAlpha || c = '|'

/-- `/\b[A-Za-z0-9._%+-]+@[A-Za-z0-9.-]+\.[A-Z|a-z]{2,}\b/g` -/
def emailRegex : List RTok :=
  [RTok.wb, RTok.repMin 1 emailLocalCls, RTok.lit '@', RTok.repMin 1 emailDomainCls,
   RTok.lit '.', RTok.repMin 2 tldCls, RTok.wb]

/-- `[-.\s]` — the phone separator class. -/
def phoneSepCls (c : Char) : Bool :=
  c = '-' || c = '.' || isWs c

/-- `/(\+?1[-.\s]?)?\(?([0-9]{3})\)?[-.\s]?([0-9]{3})[-.\s]?([0-9]{4})/g` -/
def phoneRegex : List RTok :=
  [RTok.opt [RTok.opt [RTok.lit '+'], RTok.lit '1', RTok.opt [RTok.cls phoneSepCls]],
   RTok.opt [RTok.lit '('], RTok.rep 3 Char.isDigit, RTok.opt [RTok.lit ')'],
   RTok.opt [RTok.cls phoneSepCls], RTok.rep 3 Char.isDigit,
   RTok.opt [RTok.cls phoneSepCls], RTok.rep 4 Char.isDigit]

/-- `/\b[A-Z][a-z]+ [A-Z][a-z]+\b/g` -/
def nameRegex : List RTok :=
  [RTok.wb, RTok.cls Char.isUpper, RTok.repMin 1 Char.isLower, RTok.lit ' ',
   RTok.cls Char.isUpper, RTok.repMin 1 Char.isLower, RTok.wb]

/-- `[...new Set(matches)]`: deduplicate, keeping first occurrences in
order; the second argument accumulates the strings already seen. -/
def dedupFirst : List (List Char) → List (List Char) → List (List Char)
  | [], _ => []
  | x :: xs, seen =>
    if seen.contains x then dedupFirst xs seen
    else x :: dedupFirst xs (x :: seen)

/-- `PIIData` from `types.ts`: emails, phones and name-like strings. -/
structure PIIData where
  emails : List (List Char)
  phones : List (List Char)
  names : List (List Char)

/-- `extractPII` from `embeddings.ts`: the three global regex scans, each
deduplicated with set semantics. -/
def extractPII (text : String) : PIIData :=
  { emails := dedupFirst (jsMatchAll emailRegex text.data) []
    phones := dedupFirst (jsMatchAll phoneRegex text.data) []
    names := dedupFirst (jsMatchAll nameRegex text.data) [] }

/-- `new RegExp(email, 'g')`: the email string compiled as a regular
expression WITHOUT escaping (the source escapes only the phone literals).
Within the characters an extracted email can contain, `.` is the wildcard
and `+` the one-or-more quantifier applied to the preceding atom; all
other characters are literal.  Returns `none` where the JavaScript
`RegExp` constructor would throw (a `+` with nothing to repeat or
following another quantifier); no input considered in this file reaches
that case. -/
def compileEmail : List Char → List RTok → Option (List RTok)
  | [], acc => some acc.reverse
  | c :: cs, acc =>
    if c = '.' then compileEmail cs (RTok.dot :: acc)
    else if c = '+' then
      match acc with
      | RTok.lit a :: rest => compileEmail cs (RTok.repMin 1 (fun x => x = a) :: rest)
      | RTok.dot :: rest => compileEmail cs (RTok.repMin 1 dotPred :: rest)
      | _ => none
    else compileEmail cs (RTok.lit c :: acc)

/-- `redactPII` from `embeddings.ts`: for each email, replace every match
of the email string compiled UNescaped with `[EMAIL REDACTED]`; then for
each phone literal (which the source regex-escapes, so it matches
literally) replace every occurrence with `[PHONE REDACTED]`.  Names are
never redacted. -/
def redactPII (text : String) (pii : PIIData) : String :=
  let afterEmails := pii.emails.foldl
    (fun t e =>
      match compileEmail e [] with
      | some toks => jsReplaceAll toks ("[EMAIL REDACTED]".data) t
      | none => t) text.data
  let afterPhones := pii.phones.foldl
    (fun t p => jsReplaceAll (p.map RTok.lit) ("[PHONE REDACTED]".data) t) afterEmails
  ⟨afterPhones⟩

/-- A sample resume record for concrete instantiations. -/
def sampleResume : ResumeRecord :=
  { id := "r1"
    filename := "r1.pdf"
    text := "some resume text"
    embedding := []
    userName := "Sam"
    userEmail := "sam@example.com" }

/-- A one-document corpus whose stored embedding is the embedding of its
own text, used to instantiate the retrieval theorem. -/
noncomputable def hiDoc : RetrievalDoc :=
  { id := "a", text := "hi", embedding := generateMockEmbedding "hi" }

/-! ## Relating the `ℚ`-valued accumulator to its integer twin -/

theorem getD_map_div (m : List ℕ) (d : ℕ) :
    (m.map fun n : ℕ => (n : ℚ) / 1000).getD d 0 = ((m.getD d 0 : ℕ) : ℚ) / 1000 := by
  induction m generalizing d with
  | nil => simp
  | cons x xs ih =>
    cases d with
    | zero => simp
    | succ d => simpa using ih d

theorem accumStep_map (m : List ℕ) (iw : ℕ × List Char) :
    accumStep (m.map fun n : ℕ => (n : ℚ) / 1000) iw
      = (accumStepM m iw).map fun n : ℕ => (n : ℚ) / 1000 := by
  simp only [accumStep, accumStepM, List.map_set, getD_map_div]
  congr 1
  push_cast
  ring

theorem foldl_accum_map (l : List (ℕ × List Char)) :
    ∀ m : List ℕ, l.foldl accumStep (m.map fun n : ℕ => (n : ℚ) / 1000)
      = (l.foldl accumStepM m).map fun n : ℕ => (n : ℚ) / 1000 := by
  induction l with
  | nil => intro m; rfl
  | cons x xs ih =>
    intro m
    rw [List.foldl_cons, List.foldl_cons, accumStep_map, ih]

theorem embAccum_eq_milli (t : List Char) :
    embAccum t = (embAccumM t).map fun n : ℕ => (n : ℚ) / 1000 := by
  unfold embAccum embAccumM
  rw [← foldl_accum_map]
  congr 1
  simp

theorem sumSq_foldl_map (m : List ℕ) :
    ∀ a : ℕ, ((m.map fun n : ℕ => (n : ℚ) / 1000).foldl (fun s v => s + v * v) ((a : ℚ) / 1000000))
      = ((m.foldl (fun s v => s + v * v) a : ℕ) : ℚ) / 1000000 := by
  induction m with
  | nil => intro a; rfl
  | cons x xs ih =>
    intro a
    rw [List.map_cons, List.foldl_cons, List.foldl_cons]
    have h : ((a : ℚ) / 1000000 + ((x : ℚ) / 1000) * ((x : ℚ) / 1000))
        = (((a + x * x : ℕ) : ℚ) / 1000000) := by
      push_cast
      ring
    rw [h, ih]

theorem magSq_eq_milli (t : List Char) :
    magSq t = ((sumSqM (embAccumM t) : ℕ) : ℚ) / 1000000 := by
  unfold magSq sumSqQ sumSqM
  rw [embAccum_eq_milli]
  simpa using sumSq_foldl_map (embAccumM t) 0

theorem magSq_nonneg (t : List Char) : 0 ≤ magSq t := by
  rw [magSq_eq_milli]
  positivity

/-! ## The normalized embedding is a unit vector -/

theorem sumSqR_foldl_shift (l : List ℝ) :
    ∀ a : ℝ, l.foldl (fun s v => s + v * v) a = a + sumSqR l := by
  induction l with
  | nil => intro a; simp [sumSqR]
  | cons x xs ih =>
    intro a
    simp only [sumSqR, List.foldl_cons]
    rw [ih, ih (0 + x * x)]
    ring

theorem sumSqR_cons (x : ℝ) (l : List ℝ) : sumSqR (x :: l) = x * x + sumSqR l := by
  simp only [sumSqR, List.foldl_cons]
  rw [sumSqR_foldl_shift]
  ring_nf
  rw [sumSqR]

theorem sumSqQ_foldl_shift (l : List ℚ) :
    ∀ a : ℚ, l.foldl (fun s v => s + v * v) a = a + sumSqQ l := by
  induction l with
  | nil => intro a; simp [sumSqQ]
  | cons x xs ih =>
    intro a
    simp only [sumSqQ, List.foldl_cons]
    rw [ih, ih (0 + x * x)]
    ring

theorem sumSqQ_cons (x : ℚ) (l : List ℚ) : sumSqQ (x :: l) = x * x + sumSqQ l := by
  simp only [sumSqQ, List.foldl_cons]
  rw [sumSqQ_foldl_shift]
  ring_nf
  rw [sumSqQ]

theorem sumSqR_map_div (l : List ℚ) (m : ℝ) :
    sumSqR (l.map fun v : ℚ => (v : ℝ) / m) = ((sumSqQ l : ℚ) : ℝ) / (m * m) := by
  induction l with
  | nil => simp [sumSqR, sumSqQ]
  | cons x xs ih =>
    rw [List.map_cons, sumSqR_cons, ih, sumSqQ_cons]
    push_cast
    rw [div_mul_div_comm, div_add_div_same]

theorem sumSqR_generateMockEmbedding (s : String) (h : magSq s.data ≠ 0) :
    sumSqR (generateMockEmbedding s) = 1 := by
  unfold generateMockEmbedding
  rw [sumSqR_map_div]
  have h0 : (0 : ℝ) ≤ ((magSq s.data : ℚ) : ℝ) := by
    exact_mod_cast magSq_nonneg s.data
  rw [Real.mul_self_sqrt h0]
  exact div_self (by exact_mod_cast h)

theorem euclidNorm_generateMockEmbedding (s : String) (h : magSq s.data ≠ 0) :
    euclidNorm (generateMockEmbedding s) = 1 := by
  unfold euclidNorm
  rw [sumSqR_generateMockEmbedding s h, Real.sqrt_one]

theorem getD_map_divR (l : List ℚ) (m : ℝ) (d : ℕ) :
    (l.map fun v : ℚ => (v : ℝ) / m).getD d 0 = ((l.getD d 0 : ℚ) : ℝ) / m := by
  induction l generalizing d with
  | nil => simp
  | cons x xs ih =>
    cases d with
    | zero => simp
    | succ d => simpa using ih d

theorem magSq_hi : magSq (String.data "hi") = 61009 / 1000000 := by
  rw [magSq_eq_milli]
  norm_num [show sumSqM (embAccumM (String.data "hi")) = 61009 from by decide]

/-! ## Claims C5, C7, C10 -/

/-- C5 (counterexample): the claim "embedding the empty text produces NaN
components because the accumulated pre-normalization vector has magnitude
exactly zero" is false at the concrete input `""`: splitting the empty
string yields one empty token, which is hashed together with its index as
`"0"` (hash 48), so the accumulated squared magnitude is `2304 / 10^6`,
not zero. -/
theorem emptyText_magSq_ne_zero : magSq ("" : String).data ≠ 0 := by
  rw [magSq_eq_milli]
  norm_num [show sumSqM (embAccumM ("" : String).data) = 2304 from by decide]

/-- C5 (amended): embedding the empty text does NOT divide by a zero
magnitude: the whitespace-split of `""` is the single empty token, hashed
as `"0"` with value 48, so the pre-normalization squared magnitude is
exactly `2304 / 10^6 ≠ 0` and the resulting embedding is a well-defined
unit vector. -/
theorem emptyText_embedding_wellDefined :
    magSq ("" : String).data = 2304 / 1000000
      ∧ euclidNorm (generateMockEmbedding "") = 1 := by
  have hm : magSq ("" : String).data = 2304 / 1000000 := by
    rw [magSq_eq_milli]
    norm_num [show sumSqM (embAccumM ("" : String).data) = 2304 from by decide]
  refine ⟨hm, euclidNorm_generateMockEmbedding "" ?_⟩
  rw [hm]
  norm_num

/-- C7: for every non-empty string whose accumulated pre-normalization
vector has nonzero (squared) magnitude, the Euclidean norm of the
generated embedding is exactly 1. -/
theorem embedding_unit_norm (s : String) (_hs : s ≠ "") (h : magSq s.data ≠ 0) :
    euclidNorm (generateMockEmbedding s) = 1 :=
  euclidNorm_generateMockEmbedding s h

/-- Witness for C7 at `s = "hi"`. -/
theorem embedding_unit_norm_witness :
    (("hi" : String) ≠ "" ∧ magSq (String.data "hi") ≠ 0)
      ∧ euclidNorm (generateMockEmbedding "hi") = 1 := by
  have h : magSq (String.data "hi") ≠ 0 := by
    rw [magSq_hi]
    norm_num
  exact ⟨⟨by decide, h⟩, embedding_unit_norm "hi" (by decide) h⟩

/-- C10: the embedder is sensitive to leading whitespace: `embed "hi"` and
`embed " hi"` differ (the leading-whitespace split produces an empty first
token, shifting every later token's position index, so dimension 335 holds
`247/1000` for `"hi"` but `0` for `" hi"`). -/
theorem embedding_not_trim_invariant :
    generateMockEmbedding "hi" ≠ generateMockEmbedding " hi" := by
  intro hEq
  have h335 : (generateMockEmbedding "hi").getD 335 0
      = (generateMockEmbedding " hi").getD 335 0 := by
    rw [hEq]
  unfold generateMockEmbedding at h335
  rw [getD_map_divR, getD_map_divR, embAccum_eq_milli, embAccum_eq_milli,
    getD_map_div, getD_map_div,
    show (embAccumM (String.data "hi")).getD 335 0 = 247 from by decide,
    show (embAccumM (String.data " hi")).getD 335 0 = 0 from by decide,
    magSq_hi] at h335
  have hne : ((((247 : ℕ) : ℚ) / 1000 : ℚ) : ℝ)
      / Real.sqrt (((61009 / 1000000 : ℚ) : ℝ)) ≠ 0 := by
    apply div_ne_zero
    · push_cast
      norm_num
    · have hpos : (0 : ℝ) < Real.sqrt (((61009 / 1000000 : ℚ) : ℝ)) := by
        apply Real.sqrt_pos.mpr
        push_cast
        norm_num
      exact ne_of_gt hpos
  apply hne
  rw [h335]
  push_cast
  norm_num

/-! ## Claim C8 -/

/-- C8: on vectors of different lengths `cosineSimilarity` returns 0 via
its explicit guard (and, being a total function, raises no exception). -/
theorem cosineSimilarity_length_mismatch (a b : List ℝ) (h : a.length ≠ b.length) :
    cosineSimilarity a b = 0 := by
  unfold cosineSimilarity
  rw [if_neg h]

/-- Witness for C8 at `a = [0]`, `b = []`. -/
theorem cosineSimilarity_length_mismatch_witness :
    ([(0 : ℝ)].length ≠ ([] : List ℝ).length)
      ∧ cosineSimilarity [(0 : ℝ)] ([] : List ℝ) = 0 :=
  ⟨by decide, cosineSimilarity_length_mismatch [(0 : ℝ)] ([] : List ℝ) (by decide)⟩

/-! ## Claims C9, C2, C3: the requirement loop and the match score -/

theorem reqLoop_length (resumeLower origText : List Char) :
    ∀ reqs : List (List Char),
      (reqLoop resumeLower origText reqs).1.length
        + (reqLoop resumeLower origText reqs).2.length = reqs.length := by
  intro reqs
  induction reqs with
  | nil => rfl
  | cons r rs ih =>
    simp only [reqLoop]
    cases h : findEvidence resumeLower origText (requirementWords r) with
    | some snip => simp only [h, List.length_cons]; omega
    | none => simp only [h, List.length_cons]; omega

/-- C9: in the match handler's requirement loop every requirement
contributes exactly one pre-truncation outcome — one evidence snippet or
one missing entry — so the two lengths sum to the number of requirements,
and the matched count `totalRequirements - missing.length` used by
`keywordScore` equals the evidence-snippet count. -/
theorem requirement_outcome_partition (resumeLower origText : List Char)
    (reqs : List (List Char)) :
    (reqLoop resumeLower origText reqs).1.length
        + (reqLoop resumeLower origText reqs).2.length = reqs.length
      ∧ (reqs.length : ℤ) - ((reqLoop resumeLower origText reqs).2.length : ℤ)
        = ((reqLoop resumeLower origText reqs).1.length : ℤ) := by
  have h := reqLoop_length resumeLower origText reqs
  exact ⟨h, by omega⟩

/-- C2 (counterexample): for a job whose requirements list is empty, the
candidate's `match_score` is `NaN` (`none`) — `keywordScore` divides zero
by zero and the clamp `Math.max(0, Math.min(100, NaN))` passes `NaN`
through — so the score does not lie in `[0, 100]`. -/
theorem match_score_nan_on_empty_requirements :
    ¬ scoreInBounds (buildMatch "Engineer" "Builds things" [] sampleResume).match_score := by
  simp [buildMatch, reqLoop, keywordScore, combinedScore, clampScore, scoreInBounds]

/-- C2 (amended): for every job with at least one requirement (so that the
keyword score is a real number and not `NaN`), the match score of every
resume is a real number in the closed interval `[0, 100]`. -/
theorem match_score_bounds (jobTitle jobDescription : String) (jobRequirements : List String)
    (resume : ResumeRecord) (hreq : jobRequirements ≠ []) :
    scoreInBounds (buildMatch jobTitle jobDescription jobRequirements resume).match_score := by
  have hlen : (jobRequirements.map (fun r => r.data.map Char.toLower)).length ≠ 0 := by
    rw [List.length_map]
    intro h
    exact hreq (List.length_eq_zero.mp h)
  simp only [buildMatch, keywordScore, if_neg hlen, combinedScore, clampScore, scoreInBounds]
  constructor
  · exact le_max_left 0 _
  · exact max_le (by norm_num) (min_le_left 100 _)

/-- Witness for C2 (amended) at a one-requirement job. -/
theorem match_score_bounds_witness :
    (["Python"] ≠ ([] : List String))
      ∧ scoreInBounds (buildMatch "Engineer" "Builds things" ["Python"] sampleResume).match_score :=
  ⟨by decide, match_score_bounds "Engineer" "Builds things" ["Python"] sampleResume (by decide)⟩

/-- C3: the handler has NO division-by-zero guard: with zero requirements
`keywordScore` evaluates `0 / 0`, which is `NaN` (`none`), not `0`; the
`NaN` propagates into the stored `match_score`. -/
theorem keywordScore_zero_requirements_nan :
    keywordScore 0 0 = none
      ∧ keywordScore 0 0 ≠ some 0
      ∧ (buildMatch "Engineer" "Builds things" [] sampleResume).match_score = none := by
  refine ⟨rfl, by simp [keywordScore], ?_⟩
  simp [buildMatch, reqLoop, keywordScore, combinedScore, clampScore]

/-! ## Claim C1: threshold versus truncation in `semanticSearch` -/

theorem hitLE_trans : ∀ a b c : RetrievalHit, hitLE a b → hitLE b c → hitLE a c := by
  intro a b c hab hbc
  simp only [hitLE, decide_eq_true_eq] at *
  exact le_trans hbc hab

theorem hitLE_total : ∀ a b : RetrievalHit, hitLE a b || hitLE b a := by
  intro a b
  simp only [hitLE, Bool.or_eq_true, decide_eq_true_eq]
  exact le_total b.score a.score

theorem sorted_scores (l : List RetrievalHit) :
    (l.mergeSort hitLE).Pairwise (fun a b => b.score ≤ a.score) := by
  have h := List.sorted_mergeSort hitLE_trans hitLE_total l
  exact h.imp (fun hab => by simpa [hitLE, decide_eq_true_eq] using hab)

theorem filter_take_of_sorted :
    ∀ l : List RetrievalHit, l.Pairwise (fun a b => b.score ≤ a.score) →
      ∀ k : ℕ, (l.take k).filter hitAbove = (l.filter hitAbove).take k := by
  intro l
  induction l with
  | nil => intro _ k; simp
  | cons x xs ih =>
    intro hp k
    rcases List.pairwise_cons.mp hp with ⟨hx, hxs⟩
    cases k with
    | zero => simp
    | succ k =>
      rw [List.take_succ_cons]
      cases hb : hitAbove x with
      | true =>
        rw [List.filter_cons_of_pos hb, List.filter_cons_of_pos hb,
          List.take_succ_cons, ih hxs k]
      | false =>
        have hb' : ¬ hitAbove x = true := by simp [hb]
        have hxle : ¬ ((1 / 10 : ℝ) < x.score) := by simpa [hitAbove] using hb
        have hfalse : ∀ a : RetrievalHit, a ∈ xs → ¬ hitAbove a = true := by
          intro a ha
          simp only [hitAbove, decide_eq_true_eq]
          intro hlt
          exact hxle (lt_of_lt_of_le hlt (hx a ha))
        have hnil : xs.filter hitAbove = [] :=
          List.filter_eq_nil_iff.mpr hfalse
        have hnil2 : (xs.take k).filter hitAbove = [] :=
          List.filter_eq_nil_iff.mpr (fun a ha => hfalse a (List.take_subset k xs ha))
        rw [List.filter_cons_of_neg hb', List.filter_cons_of_neg hb', hnil, hnil2]
        simp

/-- C1: in `semanticSearch`, truncating to `k` and then filtering scores
`> 0.1` computes exactly the spec's filter-then-truncate pipeline (the two
commute on the descending-sorted list), and whenever at least `k` corpus
entries score strictly above `0.1` against the query embedding the result
has exactly `k` hits. -/
theorem semanticSearch_threshold_truncation (query : String) (resumes : List RetrievalDoc)
    (k : ℕ)
    (hk : k ≤ resumes.countP
      (fun r => decide ((1 / 10 : ℝ)
        < cosineSimilarity (generateMockEmbedding query) r.embedding))) :
    semanticSearch query resumes k = semanticSearchSpec query resumes k
      ∧ (semanticSearch query resumes k).length = k := by
  have hsorted := sorted_scores (searchHits query resumes)
  have heq := filter_take_of_sorted _ hsorted k
  have hcount : (searchHits query resumes).countP hitAbove
      = resumes.countP
        (fun r => decide ((1 / 10 : ℝ)
          < cosineSimilarity (generateMockEmbedding query) r.embedding)) := by
    unfold searchHits
    rw [List.countP_map]
    rfl
  have hperm : ((searchHits query resumes).mergeSort hitLE).countP hitAbove
      = (searchHits query resumes).countP hitAbove :=
    (List.mergeSort_perm (searchHits query resumes) hitLE).countP_eq hitAbove
  constructor
  · exact heq
  · show ((((searchHits query resumes).mergeSort hitLE).take k).filter hitAbove).length = k
    rw [heq, List.length_take, ← List.countP_eq_length_filter, hperm, hcount]
    exact Nat.min_eq_left hk

theorem dotR_foldl_shift (l : List ℝ) :
    ∀ a : ℝ, l.foldl (fun s v => s + v) a = a + l.foldl (fun s v => s + v) 0 := by
  induction l with
  | nil => intro a; simp
  | cons x xs ih =>
    intro a
    simp only [List.foldl_cons]
    rw [ih, ih (0 + x)]
    ring

theorem dotR_self (l : List ℝ) : dotR l l = sumSqR l := by
  induction l with
  | nil => rfl
  | cons x xs ih =>
    show (((x :: xs).zipWith (fun x y => x * y) (x :: xs)).foldl (fun s v => s + v) 0) = _
    rw [List.zipWith_cons_cons, List.foldl_cons, dotR_foldl_shift, sumSqR_cons]
    have : (List.zipWith (fun x y => x * y) xs xs).foldl (fun s v => s + v) 0 = dotR xs xs := rfl
    rw [this, ih]
    ring

theorem cosineSimilarity_self_one (s : String) (h : magSq s.data ≠ 0) :
    cosineSimilarity (generateMockEmbedding s) (generateMockEmbedding s) = 1 := by
  unfold cosineSimilarity
  rw [if_pos rfl, dotR_self, sumSqR_generateMockEmbedding s h, Real.sqrt_one]
  norm_num

/-- Witness for C1 on a one-document corpus scoring `1 > 0.1` with `k = 1`. -/
theorem semanticSearch_threshold_truncation_witness :
    1 ≤ List.countP
        (fun r => decide ((1 / 10 : ℝ)
          < cosineSimilarity (generateMockEmbedding "hi") r.embedding)) [hiDoc]
      ∧ (semanticSearch "hi" [hiDoc] 1).length = 1 := by
  have hmag : magSq (String.data "hi") ≠ 0 := by
    rw [magSq_hi]
    norm_num
  have hcos := cosineSimilarity_self_one "hi" hmag
  have hpred : decide ((1 / 10 : ℝ)
      < cosineSimilarity (generateMockEmbedding "hi") hiDoc.embedding) = true := by
    rw [show hiDoc.embedding = generateMockEmbedding "hi" from rfl, hcos]
    simp only [decide_eq_true_eq]
    norm_num
  have hcount : List.countP
      (fun r => decide ((1 / 10 : ℝ)
        < cosineSimilarity (generateMockEmbedding "hi") r.embedding)) [hiDoc] = 1 := by
    rw [List.countP_cons, List.countP_nil, hpred]
    rfl
  refine ⟨by rw [hcount], ?_⟩
  exact (semanticSearch_threshold_truncation "hi" [hiDoc] 1 (by rw [hcount])).2

/-! ## Claims C4 and C6: redaction -/

/-- C4 (code evaluated at the failing input): the email `a+b@c.com` IS
extracted by `extractPII`, but `redactPII` compiles it into the
unescaped regular expression `/a+b@c.com/g`, in which `+` is a
quantifier, so the pattern does not match the literal and the text is
returned unchanged — no occurrence is replaced by `[EMAIL REDACTED]`. -/
theorem redactPII_misses_email_with_plus :
    (extractPII "a+b@c.com").emails = [String.data "a+b@c.com"]
      ∧ redactPII "a+b@c.com" (extractPII "a+b@c.com") = "a+b@c.com" := by
  constructor
  · decide
  · decide

/-- C6 (code evaluated at the failing input): redaction is NOT idempotent.
For `t = "q@.......REDACTED q@w@e.fg"` the first pass rewrites the text to
`"[EMAIL REDACTED] q@[EMAIL REDACTED]"`; the unescaped pattern
`/q@.......REDACTED/g` (seven wildcards) then matches the fragment
`q@[EMAIL REDACTED` that the first pass created, so a second pass changes
the text again. -/
theorem redactPII_not_idempotent :
    redactPII
        (redactPII "q@.......REDACTED q@w@e.fg" (extractPII "q@.......REDACTED q@w@e.fg"))
        (extractPII "q@.......REDACTED q@w@e.fg")
      ≠ redactPII "q@.......REDACTED q@w@e.fg" (extractPII "q@.......REDACTED q@w@e.fg") := by
  decide

end ResumeRAG
